import Mathlib

/-!
Shallow embedding of the news-scraper core in src/tasks.py (class NewsScraper),
with the browser, clock and filesystem effects made explicit:

* strings are handled through List Char helpers mirroring the Python string
  methods used by the source (split, count, lower, in, strip, int());
* datetime values are a structure of year, month, day and a time-of-day field,
  because datetime.now() carries wall-clock time and replace(day=1) keeps it;
* datetime.strptime over the twelve format strings of should_process_article
  is modelled directive by directive (CPython compiles each directive to a
  regular expression; whitespace in a format matches one or more whitespace
  characters, month names match case-insensitively, %Y is exactly four digits,
  %d and %m prefer a valid two-digit match and fall back to one digit); the
  regex engine backtracking across directives is not modelled, which affects
  none of the inputs used here;
* each call to datetime.now() is fed from an explicit clock indexed by a tick
  that advances at every date check, since the source calls now() inside
  should_process_article, once per article;
* a raised-and-unhandled Python exception is PyResult.exn; caught exceptions
  follow the source control flow.
-/

/-- Python str.isspace / regex whitespace over the ASCII range (space, tab,
newline, carriage return, vertical tab, form feed); non-ASCII whitespace is
not modelled. -/
def pyIsSpace (c : Char) : Bool :=
  c == ' ' || c == '\t' || c == '\n' || c == '\r' || c == '\x0b' || c == '\x0c'

/-- Whether the first list is a prefix of the second. -/
def isPrefixCh : List Char → List Char → Bool
  | [], _ => true
  | _ :: _, [] => false
  | a :: as, b :: bs => a == b && isPrefixCh as bs

/-- Python substring containment, s2 in s1, on char lists. -/
def containsCh (sub : List Char) : List Char → Bool
  | [] => isPrefixCh sub []
  | b :: bs => isPrefixCh sub (b :: bs) || containsCh sub bs

/-- Greedy left-to-right non-overlapping occurrence scan of Python
str.count for a nonempty needle; the fuel argument is instantiated with the
length of the scanned list, which bounds the number of steps. -/
def countChAux (sub : List Char) : Nat → List Char → Nat
  | 0, _ => 0
  | _ + 1, [] => 0
  | fuel + 1, b :: bs =>
    if isPrefixCh sub (b :: bs) then 1 + countChAux sub fuel ((b :: bs).drop sub.length)
    else countChAux sub fuel bs

/-- Python str.count: non-overlapping substring count; an empty needle counts
length + 1 as in CPython. -/
def pyCountStr (s sub : String) : Nat :=
  match sub.data with
  | [] => s.data.length + 1
  | _ :: _ => countChAux sub.data s.data.length s.data

/-- Python str.lower restricted to ASCII letters (the only case mapping the
inputs here exercise). -/
def pyLower (s : String) : String := ⟨s.data.map Char.toLower⟩

/-- NewsScraper.search_phrase_count, src/tasks.py lines 91-109:
title.lower().count(phrase.lower()) + description.lower().count(phrase.lower()). -/
def search_phrase_count (title description phrase : String) : Nat :=
  pyCountStr (pyLower title) (pyLower phrase) + pyCountStr (pyLower description) (pyLower phrase)

/-- re.search of the first pattern of contains_money,
\$\d+(?:,\d{3})*(?:\.\d{2})?: since both trailing groups are optional and
\d+ needs one digit, the search succeeds exactly when a dollar sign
immediately followed by a digit occurs somewhere in the text. -/
def searchDollarAmount : List Char → Bool
  | [] => false
  | [_] => false
  | a :: b :: rest => (a == '$' && b.isDigit) || searchDollarAmount (b :: rest)

/-- Consume one or more digits greedily, as regex \d+ does. -/
def dropDigits1 : List Char → Option (List Char)
  | c :: cs => if c.isDigit then some (cs.dropWhile Char.isDigit) else none
  | [] => none

/-- Consume one or more whitespace characters greedily, as regex \s+ does. -/
def dropSpaces1 : List Char → Option (List Char)
  | c :: cs => if pyIsSpace c then some (cs.dropWhile pyIsSpace) else none
  | [] => none

/-- Match \d+\s+word at the head of the list (no backtracking is needed since
digits, whitespace and the word letters are disjoint character classes). -/
def matchNumWord (word : List Char) (cs : List Char) : Bool :=
  match dropDigits1 cs with
  | none => false
  | some rest =>
    match dropSpaces1 rest with
    | none => false
    | some rest2 => isPrefixCh word rest2

/-- re.search of \d+\s+word: try a match at every position. -/
def searchNumWord (word : List Char) : List Char → Bool
  | [] => false
  | c :: cs => matchNumWord word (c :: cs) || searchNumWord word cs

/-- NewsScraper.contains_money, src/tasks.py lines 111-130: the three regex
patterns tried in order with re.search; the loop with early return is the
disjunction of the three searches. -/
def contains_money (text : String) : Bool :=
  searchDollarAmount text.data
    || searchNumWord ("dollars".data) text.data
    || searchNumWord ("USD".data) text.data

/-- Python str.split with a one-character separator: keeps empty groups,
never returns an empty list. -/
def splitOnCh (sep : Char) : List Char → List (List Char)
  | [] => [[]]
  | c :: cs =>
    match splitOnCh sep cs with
    | [] => [[]]
    | g :: gs => if c == sep then [] :: g :: gs else (c :: g) :: gs

/-- str(attr).split(',')[0].split(' ')[0] from src/tasks.py lines 230-232:
first comma-separated candidate, then its first space-delimited token. -/
def image_url_chars (a : List Char) : List Char :=
  (splitOnCh ' ' ((splitOnCh ',' a).headD [])).headD []

/-- image_url.split('%')[-1] from src/tasks.py line 235: the part after the
last percent sign (the whole URL when there is none). -/
def img_name_raw (a : List Char) : List Char :=
  (splitOnCh '%' (image_url_chars a)).getLastD []

/-- Local image name derivation from src/tasks.py lines 230-237; note the
source tests substring containment of ".jpg", not a suffix. -/
def img_name_of (attr : String) : String :=
  let n := img_name_raw attr.data
  if containsCh (".jpg".data) n then ⟨n⟩ else ⟨n ++ (".jpg").data⟩

/-- Strip leading and trailing whitespace as Python int(str) does. -/
def pyStrip (cs : List Char) : List Char :=
  ((cs.dropWhile pyIsSpace).reverse.dropWhile pyIsSpace).reverse

/-- Decimal value of a digit list. -/
def digitsVal (ds : List Char) : Nat :=
  ds.foldl (fun acc c => 10 * acc + (c.toNat - 48)) 0

/-- Python int(str): optional surrounding whitespace, optional sign, one or
more decimal digits (digit-group underscores are not modelled). -/
def pyIntOfChars (cs : List Char) : Option Int :=
  match pyStrip cs with
  | '-' :: ds => if !ds.isEmpty && ds.all Char.isDigit then some (-(digitsVal ds : Int)) else none
  | '+' :: ds => if !ds.isEmpty && ds.all Char.isDigit then some ((digitsVal ds : Int)) else none
  | ds => if !ds.isEmpty && ds.all Char.isDigit then some ((digitsVal ds : Int)) else none

/-- Page-count read of src/tasks.py lines 315-316:
int(str(text.split(' ')[-1]).replace(',', '')). -/
def parse_page_num (h : String) : Option Int :=
  pyIntOfChars (((splitOnCh ' ' h.data).getLastD []).filter (fun c => !(c == ',')))

/-- A calendar date as produced by datetime.strptime (time fields default to
midnight). -/
structure PDate where
  year : Nat
  month : Nat
  day : Nat
deriving DecidableEq, Repr

/-- A Python datetime: date plus a time-of-day field (an abstract count of
sub-day units since midnight); datetime comparison is lexicographic. -/
structure PyDateTime where
  year : Int
  month : Nat
  day : Nat
  tod : Nat
deriving DecidableEq, Repr

/-- A strptime result as a datetime: the time fields are midnight. -/
def pdDT (p : PDate) : PyDateTime := ⟨(p.year : Int), p.month, p.day, 0⟩

/-- Python datetime strict comparison (lexicographic). -/
def dtLt (a b : PyDateTime) : Bool :=
  if a.year < b.year then true
  else if b.year < a.year then false
  else if a.month < b.month then true
  else if b.month < a.month then false
  else if a.day < b.day then true
  else if b.day < a.day then false
  else decide (a.tod < b.tod)

def monthAbbrList : List (List Char × Nat) :=
  [("jan".data, 1), ("feb".data, 2), ("mar".data, 3), ("apr".data, 4),
   ("may".data, 5), ("jun".data, 6), ("jul".data, 7), ("aug".data, 8),
   ("sep".data, 9), ("oct".data, 10), ("nov".data, 11), ("dec".data, 12)]

def monthFullList : List (List Char × Nat) :=
  [("january".data, 1), ("february".data, 2), ("march".data, 3), ("april".data, 4),
   ("may".data, 5), ("june".data, 6), ("july".data, 7), ("august".data, 8),
   ("september".data, 9), ("october".data, 10), ("november".data, 11), ("december".data, 12)]

/-- Case-insensitive literal match returning the rest of the input. -/
def matchCI : List Char → List Char → Option (List Char)
  | [], cs => some cs
  | _ :: _, [] => none
  | a :: as, c :: cs => if a.toLower == c.toLower then matchCI as cs else none

/-- Match a month name from a table (%b or %B); no name in either table is a
prefix of another, so table order is irrelevant. -/
def pMonthName : List (List Char × Nat) → List Char → Option (Nat × List Char)
  | [], _ => none
  | (nm, v) :: tbl, cs =>
    match matchCI nm cs with
    | some rest => some (v, rest)
    | none => pMonthName tbl cs

/-- One or more whitespace characters (a whitespace run in a strptime format
is compiled to \s+). -/
def pWS : List Char → Option (List Char)
  | c :: cs => if pyIsSpace c then some (cs.dropWhile pyIsSpace) else none
  | [] => none

/-- A literal format character. -/
def pLitCh (l : Char) : List Char → Option (List Char)
  | c :: cs => if c == l then some cs else none
  | [] => none

def digitVal (c : Char) : Nat := c.toNat - 48

/-- strptime %Y: exactly four digits. -/
def p4Y : List Char → Option (Nat × List Char)
  | a :: b :: c :: d :: rest =>
    if a.isDigit && b.isDigit && c.isDigit && d.isDigit then
      some (1000 * digitVal a + 100 * digitVal b + 10 * digitVal c + digitVal d, rest)
    else none
  | _ => none

/-- Fallback one-digit branch of the %d / %m regex alternation. -/
def pSingleDigit (a : Char) (rest : List Char) : Option (Nat × List Char) :=
  if a.isDigit then (if 1 ≤ digitVal a then some (digitVal a, rest) else none) else none

/-- strptime %d (hi = 31) and %m (hi = 12): the compiled alternation prefers
a two-digit match whose value is in range and falls back to a single nonzero
digit. -/
def pNum1to (hi : Nat) : List Char → Option (Nat × List Char)
  | [] => none
  | [a] => pSingleDigit a []
  | a :: b :: rest =>
    if a.isDigit && b.isDigit then
      (if 1 ≤ 10 * digitVal a + digitVal b ∧ 10 * digitVal a + digitVal b ≤ hi then
        some (10 * digitVal a + digitVal b, rest)
      else pSingleDigit a (b :: rest))
    else pSingleDigit a (b :: rest)

/-- One strptime directive of the formats used by should_process_article. -/
inductive FTok
  | ws
  | lit (c : Char)
  | year4
  | monthNum
  | dayNum
  | monthAbbr
  | monthFull

/-- Run a directive list over the input; like CPython, the whole input must
be consumed (otherwise, unconverted data remains and the format fails).
Unset fields keep the strptime defaults 1900-01-01. -/
def runToks : List FTok → List Char → Nat → Nat → Nat → Option PDate
  | [], cs, y, mo, dy => if cs.isEmpty then some ⟨y, mo, dy⟩ else none
  | .ws :: ts, cs, y, mo, dy =>
    match pWS cs with
    | some rest => runToks ts rest y mo dy
    | none => none
  | .lit c :: ts, cs, y, mo, dy =>
    match pLitCh c cs with
    | some rest => runToks ts rest y mo dy
    | none => none
  | .year4 :: ts, cs, _, mo, dy =>
    match p4Y cs with
    | some (v, rest) => runToks ts rest v mo dy
    | none => none
  | .monthNum :: ts, cs, y, _, dy =>
    match pNum1to 12 cs with
    | some (v, rest) => runToks ts rest y v dy
    | none => none
  | .dayNum :: ts, cs, y, mo, _ =>
    match pNum1to 31 cs with
    | some (v, rest) => runToks ts rest y mo v
    | none => none
  | .monthAbbr :: ts, cs, y, _, dy =>
    match pMonthName monthAbbrList cs with
    | some (v, rest) => runToks ts rest y v dy
    | none => none
  | .monthFull :: ts, cs, y, _, dy =>
    match pMonthName monthFullList cs with
    | some (v, rest) => runToks ts rest y v dy
    | none => none

def isLeap (y : Nat) : Bool := (y % 4 == 0 && y % 100 != 0) || y % 400 == 0

def daysInMonth (y mo : Nat) : Nat :=
  if mo == 2 then (if isLeap y then 29 else 28)
  else if mo == 4 || mo == 6 || mo == 9 || mo == 11 then 30
  else 31

/-- Validation performed by the datetime constructor after a regex match;
its failure raises ValueError, which the per-format except clause of
should_process_article turns into trying the next format. -/
def validDate (p : PDate) : Bool :=
  decide (1 ≤ p.year ∧ 1 ≤ p.month ∧ p.month ≤ 12 ∧ 1 ≤ p.day ∧ p.day ≤ daysInMonth p.year p.month)

/-- The twelve formats of src/tasks.py lines 161-174, in source order. -/
def date_formats : List (List FTok) :=
  [[.monthAbbr, .ws, .dayNum, .lit ',', .ws, .year4],
   [.monthAbbr, .lit '.', .ws, .dayNum, .lit ',', .ws, .year4],
   [.monthFull, .ws, .dayNum, .lit ',', .ws, .year4],
   [.monthFull, .lit '.', .ws, .dayNum, .lit ',', .ws, .year4],
   [.dayNum, .ws, .monthFull, .ws, .year4],
   [.dayNum, .ws, .monthAbbr, .ws, .year4],
   [.dayNum, .ws, .monthAbbr, .lit '.', .ws, .year4],
   [.year4, .lit '-', .monthNum, .lit '-', .dayNum],
   [.monthNum, .lit '/', .dayNum, .lit '/', .year4],
   [.dayNum, .lit '/', .monthNum, .lit '/', .year4],
   [.monthNum, .lit '-', .dayNum, .lit '-', .year4],
   [.dayNum, .lit '-', .monthNum, .lit '-', .year4]]

/-- First format that both matches and validates wins (the format loop of
src/tasks.py lines 177-182 with its inner except ValueError: continue). -/
def tryFormats : List (List FTok) → List Char → Option PDate
  | [], _ => none
  | f :: fs, cs =>
    match runToks f cs 1900 1 1 with
    | some p => if validDate p then some p else tryFormats fs cs
    | none => tryFormats fs cs

/-- The date-parsing loop of should_process_article, src/tasks.py
lines 161-182. -/
def parse_article_date (s : String) : Option PDate := tryFormats date_formats s.data

/-- Cutoff computation of src/tasks.py lines 188-191. relativedelta
subtraction changes only the month (its day clamping is overridden by the
subsequent replace(day=1)); both relativedelta subtraction and replace keep
the wall-clock time-of-day of now. -/
def cutoff_date (now : PyDateTime) (months : Int) : PyDateTime :=
  if 0 < months then
    let total : Int := now.year * 12 + (now.month : Int) - 1 - (months - 1)
    ⟨total.ediv 12, (total.emod 12).toNat + 1, 1, now.tod⟩
  else ⟨now.year, now.month, 1, now.tod⟩

/-- Whether a date string parses to a date strictly earlier than the cutoff
derived from the given instant. -/
def dateBreaks (d : String) (months : Int) (now : PyDateTime) : Bool :=
  match parse_article_date d with
  | some pd => dtLt (pdDT pd) (cutoff_date now months)
  | none => false

/-- NewsScraper.should_process_article, src/tasks.py lines 149-199. When no
format parses, article_date is None and the comparison None < cutoff raises
TypeError, which the enclosing except catches, so the function returns
"Continue". -/
def should_process_article (date : String) (months : Int) (now : PyDateTime) : String :=
  match parse_article_date date with
  | none => "Continue"
  | some pd => if dtLt (pdDT pd) (cutoff_date now months) then "Break" else "Continue"


/-- One rendered result row as the source reads it: each field read is an
element lookup that can raise (modelled by none). srcset is the value of
get_element_attribute on the webp source element: the outer none means the
element lookup raised; some none means the element exists but the attribute
is absent, in which case the source wraps the Python None in str() giving the
string None. download_ok tells whether urlretrieve would succeed for this
row, i.e. whether the image file gets written. -/
structure Row where
  waitEnabled : Bool
  title : Option String
  dateText : Option String
  description : Option String
  srcset : Option (Option String)
  download_ok : Bool
deriving DecidableEq, Repr

/-- One list appended to news_data (Title, Date, Description, Image filename,
Search count, Contains money flag). -/
structure NewsEntry where
  title : String
  date : String
  description : String
  image_filename : String
  search_count : Nat
  money : Bool
deriving DecidableEq, Repr

/-- Outcome of a Python call: a returned value or an uncaught exception. -/
inductive PyResult (α : Type)
  | ok (a : α)
  | exn
deriving DecidableEq, Repr

/-- str(x) for the optional attribute value (str(None) is the string None). -/
def strAttr (a : Option String) : String :=
  match a with
  | some s => s
  | none => "None"

/-- The image filename a processed row records, src/tasks.py lines 229-243:
No image exactly when the source-element lookup raised; a download failure
does not change it because download_image catches its own exceptions. -/
def rowImage (r : Row) : String :=
  match r.srcset with
  | none => "No image"
  | some a => "./output/" ++ img_name_of (strAttr a)

/-- Files the image step of a row writes: the resolved path when the element
lookup succeeded and the download succeeded, nothing otherwise. -/
def rowWritten (r : Row) : List String :=
  match r.srcset with
  | some a => if r.download_ok then ["./output/" ++ img_name_of (strAttr a)] else []
  | none => []

/-- The news_data record a fully processed row contributes. -/
def rowEntry (phrase : String) (r : Row) : NewsEntry :=
  { title := r.title.getD ""
    date := r.dateText.getD ""
    description := r.description.getD ""
    image_filename := rowImage r
    search_count := search_phrase_count (r.title.getD "") (r.description.getD "") phrase
    money := contains_money (r.description.getD "") }

/-- Result of extract_page_data: the news_data list (mutated in place by the
source, hence preserved even when an exception escapes), the files written so
far, the Python return value or exception, and the clock tick after the
date checks performed. -/
structure PageOut where
  data : List NewsEntry
  written : List String
  res : PyResult (Option String)
  tick : Nat
deriving DecidableEq, Repr

/-- NewsScraper.extract_page_data, src/tasks.py lines 201-250. Per row:
wait for the h3 (a timeout raises), read title and date (either read can
raise), ask should_process_article and return "Break" if it says so, read
the description (can raise), then the image block: only this step has a
row-local try, so a failing source-element lookup degrades to No image while
a download failure inside download_image is swallowed and leaves the derived
path in the record. The clock supplies the value of datetime.now() for the
date check at each tick. -/
def extract_page_data (rows : List Row) (phrase : String) (data : List NewsEntry)
    (months : Int) (clock : Nat → PyDateTime) (tick : Nat) (written : List String) : PageOut :=
  match rows with
  | [] => ⟨data, written, .ok none, tick⟩
  | r :: rest =>
    if r.waitEnabled then
      match r.title with
      | none => ⟨data, written, .exn, tick⟩
      | some title =>
        match r.dateText with
        | none => ⟨data, written, .exn, tick⟩
        | some date =>
          if should_process_article date months (clock tick) = "Break" then
            ⟨data, written, .ok (some "Break"), tick + 1⟩
          else
            match r.description with
            | none => ⟨data, written, .exn, tick + 1⟩
            | some description =>
              let image_filename := rowImage r
              let search_count := search_phrase_count title description phrase
              let flag := contains_money description
              extract_page_data rest phrase
                (data ++ [⟨title, date, description, image_filename, search_count, flag⟩])
                months clock (tick + 1) (written ++ rowWritten r)
    else ⟨data, written, .exn, tick⟩

/-- Observable outcome of extract_news_data: its return value or escaped
exception, the image files written, and the (ghost) list of page indices
whose rows were enumerated, recording which pages the crawl visited. -/
structure CrawlOut where
  result : PyResult (List NewsEntry)
  written : List String
  visited : List Nat
deriving DecidableEq, Repr

/-- The paging loop of extract_news_data, src/tasks.py lines 320-332, one
recursive step per loop iteration (iters = page_num - 1). rest holds the
still-unvisited pages, the current one first; cur is its index. An empty or
missing current page makes the per-iteration wait raise, uncaught. The
extract_page_data call is wrapped by run_keyword_and_return_status, which
turns an exception into (False, None), so a page failure falls through to
navigation. A Break return stops before navigating. Navigation reads the
next-page link attribute, which raises (uncaught) when no next page exists. -/
def crawl_loop (phrase : String) (months : Int) (clock : Nat → PyDateTime) :
    Nat → List (List Row) → Nat → List NewsEntry → List String → List Nat → Nat → CrawlOut
  | 0, _, _, data, written, vis, _ => ⟨.ok data, written, vis⟩
  | _ + 1, [], _, _, written, vis, _ => ⟨.exn, written, vis⟩
  | iters + 1, rows :: rest2, cur, data, written, vis, tick =>
    match rows with
    | [] => ⟨.exn, written, vis⟩
    | _ :: _ =>
      let p := extract_page_data rows phrase data months clock tick written
      let resultVal : Option String :=
        match p.res with
        | .ok v => v
        | .exn => none
      if resultVal = some "Break" then ⟨.ok p.data, p.written, vis ++ [cur]⟩
      else
        match rest2 with
        | [] => ⟨.exn, p.written, vis ++ [cur]⟩
        | q :: qs => crawl_loop phrase months clock iters (q :: qs) (cur + 1) p.data p.written (vis ++ [cur]) p.tick

/-- NewsScraper.extract_news_data, src/tasks.py lines 289-334. The initial
wait for the first result row raises (uncaught) when there is none; header
is the text of the page-counts element (none when its wait or read raised).
When the header is unreadable or unparsable, the except clause only logs, so
the local variable page_num is never assigned and the loop line raises
NameError: the call ends in an exception, not an empty list. Sorting by
Newest is assumed to succeed; the category selection is wrapped by
run_keyword_and_return_status and cannot abort the call. -/
def extract_news_data (pages : List (List Row)) (header : Option String)
    (phrase : String) (months : Int) (clock : Nat → PyDateTime) : CrawlOut :=
  match pages with
  | (_ :: _) :: _ =>
    (match header with
     | none => ⟨.exn, [], []⟩
     | some h =>
       match parse_page_num h with
       | none => ⟨.exn, [], []⟩
       | some pn => crawl_loop phrase months clock (pn - 1).toNat pages 0 [] [] [] 0)
  | _ => ⟨.exn, [], []⟩

/-- All field reads of a row succeed. -/
def cleanRow (r : Row) : Bool :=
  r.waitEnabled && r.title.isSome && r.dateText.isSome && r.description.isSome


theorem spa_eq_break_iff (d : String) (months : Int) (now : PyDateTime) :
    should_process_article d months now = "Break" ↔ dateBreaks d months now = true := by
  unfold should_process_article dateBreaks
  cases parse_article_date d with
  | none => simp
  | some pd =>
    by_cases h : dtLt (pdDT pd) (cutoff_date now months) = true
    · simp [h]
    · simp only [Bool.not_eq_true] at h
      simp [h]

theorem cleanRow_shape (r : Row) (h : cleanRow r = true) :
    ∃ tt dd ds, r.waitEnabled = true ∧ r.title = some tt ∧ r.dateText = some dd ∧
      r.description = some ds := by
  unfold cleanRow at h
  simp only [Bool.and_eq_true, Option.isSome_iff_exists] at h
  obtain ⟨⟨⟨hw, tt, ht⟩, dd, hd⟩, ds, hds⟩ := h
  exact ⟨tt, dd, ds, hw, ht, hd, hds⟩

theorem epd_cons_clean (r : Row) (rest : List Row) (phrase : String) (data : List NewsEntry)
    (months : Int) (clock : Nat → PyDateTime) (tick : Nat) (written : List String)
    (hc : cleanRow r = true)
    (hnb : should_process_article (r.dateText.getD "") months (clock tick) ≠ "Break") :
    extract_page_data (r :: rest) phrase data months clock tick written
      = extract_page_data rest phrase (data ++ [rowEntry phrase r]) months clock (tick + 1)
          (written ++ rowWritten r) := by
  obtain ⟨tt, dd, ds, hw, ht, hd, hds⟩ := cleanRow_shape r hc
  rw [hd] at hnb
  simp only [Option.getD_some] at hnb
  cases r with
  | mk we t? d? ds? src dl =>
    simp only at hw ht hd hds
    subst hw ht hd hds
    simp only [extract_page_data, if_pos, if_neg hnb, rowEntry, Option.getD_some]

theorem epd_clean_list (phrase : String) (months : Int) (t : PyDateTime) :
    ∀ (rows : List Row) (data : List NewsEntry) (written : List String) (tick : Nat),
    (∀ r ∈ rows, cleanRow r = true ∧ dateBreaks (r.dateText.getD "") months t = false) →
    extract_page_data rows phrase data months (fun _ => t) tick written
      = ⟨data ++ rows.map (rowEntry phrase), written ++ (rows.map rowWritten).flatten,
         .ok none, tick + rows.length⟩ := by
  intro rows
  induction rows with
  | nil => intro data written tick _; simp [extract_page_data]
  | cons r rest ih =>
    intro data written tick h
    obtain ⟨hc, hb⟩ := h r (by simp)
    have hnb : should_process_article (r.dateText.getD "") months t ≠ "Break" := by
      intro he
      rw [spa_eq_break_iff] at he
      rw [he] at hb
      exact Bool.true_eq_false.mp hb
    rw [epd_cons_clean r rest phrase data months (fun _ => t) tick written hc hnb]
    rw [ih _ _ _ (fun x hx => h x (by simp [hx]))]
    simp [List.append_assoc]
    omega

theorem epd_break_list (phrase : String) (months : Int) (t : PyDateTime) :
    ∀ (qpre : List Row) (rstop : Row) (qpost : List Row) (data : List NewsEntry)
      (written : List String) (tick : Nat),
    (∀ r ∈ qpre, cleanRow r = true ∧ dateBreaks (r.dateText.getD "") months t = false) →
    rstop.waitEnabled = true → rstop.title.isSome = true → rstop.dateText.isSome = true →
    dateBreaks (rstop.dateText.getD "") months t = true →
    extract_page_data (qpre ++ rstop :: qpost) phrase data months (fun _ => t) tick written
      = ⟨data ++ qpre.map (rowEntry phrase), written ++ (qpre.map rowWritten).flatten,
         .ok (some "Break"), tick + qpre.length + 1⟩ := by
  intro qpre
  induction qpre with
  | nil =>
    intro rstop qpost data written tick _ hw ht hd hb
    obtain ⟨dd, hdd⟩ := Option.isSome_iff_exists.mp hd
    obtain ⟨tt, htt⟩ := Option.isSome_iff_exists.mp ht
    have hbrk : should_process_article (rstop.dateText.getD "") months t = "Break" :=
      (spa_eq_break_iff _ _ _).mpr hb
    rw [hdd] at hbrk
    simp only [Option.getD_some] at hbrk
    cases rstop with
    | mk we t? d? ds? src dl =>
      simp only at hw htt hdd
      subst hw htt hdd
      simp [extract_page_data, hbrk]
  | cons r rest ih =>
    intro rstop qpost data written tick h hw ht hd hb
    obtain ⟨hc, hbf⟩ := h r (by simp)
    have hnb : should_process_article (r.dateText.getD "") months t ≠ "Break" := by
      intro he
      rw [spa_eq_break_iff] at he
      rw [he] at hbf
      exact Bool.true_eq_false.mp hbf
    rw [List.cons_append,
      epd_cons_clean r (rest ++ rstop :: qpost) phrase data months (fun _ => t) tick written hc hnb]
    rw [ih rstop qpost _ _ _ (fun x hx => h x (by simp [hx])) hw ht hd hb]
    simp [List.append_assoc]
    omega

theorem map_add_shift (cur n : Nat) :
    (List.range n).map (fun i => cur + 1 + i) = (List.range n).map (fun i => cur + (i + 1)) :=
  List.map_congr_left (fun i _ => by omega)

theorem loop_clean_pages (phrase : String) (months : Int) (t : PyDateTime) :
    ∀ (P : List (List Row)) (k : Nat) (rest2 : List (List Row)) (cur : Nat)
      (data : List NewsEntry) (written : List String) (vis : List Nat) (tick : Nat),
    (∀ p ∈ P, p ≠ [] ∧ ∀ r ∈ p, cleanRow r = true ∧ dateBreaks (r.dateText.getD "") months t = false) →
    rest2 ≠ [] →
    crawl_loop phrase months (fun _ => t) (P.length + k + 1) (P ++ rest2) cur data written vis tick
      = crawl_loop phrase months (fun _ => t) (k + 1) rest2 (cur + P.length)
          (data ++ P.flatten.map (rowEntry phrase)) (written ++ (P.flatten.map rowWritten).flatten)
          (vis ++ (List.range P.length).map (fun i => cur + i)) (tick + P.flatten.length) := by
  intro P
  induction P with
  | nil => intro k rest2 cur data written vis tick _ _; simp
  | cons p P ih =>
    intro k rest2 cur data written vis tick hP hr
    obtain ⟨hpne, hclean⟩ := hP p (by simp)
    obtain ⟨a, as, hpa⟩ : ∃ a as, p = a :: as := by
      cases p with
      | nil => exact absurd rfl hpne
      | cons a as => exact ⟨a, as, rfl⟩
    have hlen : (p :: P).length + k + 1 = (P.length + k + 1) + 1 := by simp; omega
    rw [hlen, List.cons_append]
    rw [show crawl_loop phrase months (fun _ => t) ((P.length + k + 1) + 1)
          (p :: (P ++ rest2)) cur data written vis tick
        = (let q := extract_page_data p phrase data months (fun _ => t) tick written
           let resultVal : Option String := match q.res with | .ok v => v | .exn => none
           if resultVal = some "Break" then ⟨.ok q.data, q.written, vis ++ [cur]⟩
           else match P ++ rest2 with
             | [] => ⟨.exn, q.written, vis ++ [cur]⟩
             | w :: ws => crawl_loop phrase months (fun _ => t) (P.length + k + 1) (w :: ws)
                 (cur + 1) q.data q.written (vis ++ [cur]) q.tick)
      from by rw [hpa]; rfl]
    rw [epd_clean_list phrase months t p data written tick hclean]
    simp only
    rw [if_neg (by simp)]
    obtain ⟨w, ws, hPR⟩ : ∃ w ws, P ++ rest2 = w :: ws := by
      cases hx : P ++ rest2 with
      | nil =>
        rcases List.append_eq_nil.mp hx with ⟨_, h2⟩
        exact absurd h2 hr
      | cons w ws => exact ⟨w, ws, rfl⟩
    rw [hPR]
    dsimp only
    rw [← hPR]
    rw [ih k rest2 (cur + 1) _ _ _ _ (fun x hx => hP x (by simp [hx])) hr]
    congr 1
    · omega
    · simp [hpa]
    · simp [hpa]
    · rw [map_add_shift, show (p :: P).length = P.length + 1 from rfl,
        List.range_succ_eq_map, List.map_cons, List.map_map, List.append_assoc]
      simp only [Nat.add_zero, List.singleton_append]
      congr 1
    · simp [hpa]
      omega

/-- C1: for every crawl in which some article's parsed date is strictly
earlier than the cutoff, the crawl stops at the first such article in
presentation order: given visited pages P (all clean, no date before the
cutoff), a stopping page qpre ++ rstop :: qpost whose first out-of-window
article is rstop, and at least one further page, extract_news_data returns
exactly the records of P and qpre, produces no record for rstop or any later
row, and visits only the pages up to and including the stopping one. -/
theorem C1_stop_at_first_out_of_window
    (P R : List (List Row)) (qpre qpost : List Row) (rstop : Row)
    (phrase header : String) (months : Int) (t : PyDateTime)
    (hn : parse_page_num header = some ((P.length + 1 + R.length : Nat) : Int))
    (hR : R ≠ [])
    (hP : ∀ p ∈ P, p ≠ [] ∧ ∀ r ∈ p, cleanRow r = true ∧
      dateBreaks (r.dateText.getD "") months t = false)
    (hqpre : ∀ r ∈ qpre, cleanRow r = true ∧ dateBreaks (r.dateText.getD "") months t = false)
    (hsw : rstop.waitEnabled = true) (hst : rstop.title.isSome = true)
    (hsd : rstop.dateText.isSome = true)
    (hstop : dateBreaks (rstop.dateText.getD "") months t = true) :
    extract_news_data (P ++ (qpre ++ rstop :: qpost) :: R) (some header) phrase months (fun _ => t)
      = ⟨.ok ((P.flatten ++ qpre).map (rowEntry phrase)),
         ((P.flatten ++ qpre).map rowWritten).flatten,
         List.range (P.length + 1)⟩ := by
  obtain ⟨r1, R2, hRr⟩ : ∃ r1 R2, R = r1 :: R2 := by
    cases R with
    | nil => exact absurd rfl hR
    | cons r1 R2 => exact ⟨r1, R2, rfl⟩
  obtain ⟨b, bs, hq⟩ : ∃ b bs, qpre ++ rstop :: qpost = b :: bs := by
    cases hx : qpre ++ rstop :: qpost with
    | nil =>
      rcases List.append_eq_nil.mp hx with ⟨_, h2⟩
      exact absurd h2 (by simp)
    | cons b bs => exact ⟨b, bs, rfl⟩
  obtain ⟨a, rows0, prest, hpg⟩ :
      ∃ a rows0 prest, P ++ (qpre ++ rstop :: qpost) :: R = (a :: rows0) :: prest := by
    cases P with
    | nil => exact ⟨b, bs, R, by simp [hq]⟩
    | cons p P2 =>
      obtain ⟨hpne, _⟩ := hP p (by simp)
      cases p with
      | nil => exact absurd rfl hpne
      | cons a rows0 => exact ⟨a, rows0, P2 ++ (qpre ++ rstop :: qpost) :: R, by simp⟩
  rw [hpg]
  simp only [extract_news_data]
  rw [hn]
  dsimp only
  rw [← hpg]
  have hiter : ((((P.length + 1 + R.length : Nat) : Int)) - 1).toNat
      = P.length + R2.length + 1 := by
    subst hRr
    simp
    omega
  rw [hiter]
  rw [loop_clean_pages phrase months t P R2.length ((qpre ++ rstop :: qpost) :: R) 0
    [] [] [] 0 hP (by simp)]
  rw [hq]
  simp only [crawl_loop]
  rw [← hq]
  rw [epd_break_list phrase months t qpre rstop qpost _ _ _ hqpre hsw hst hsd hstop]
  dsimp only
  rw [if_pos rfl]
  congr 1
  · simp
  · simp
  · simp [List.range_succ]

/-- A fully readable row (title, date text, description) with no image
source element; shared by the concrete instances below. -/
def plainRow (tt dd ds : String) : Row := ⟨true, some tt, some dd, some ds, none, false⟩

def C1P : List (List Row) := [[plainRow "A1" "Apr 2, 2024" "x1", plainRow "A2" "Mar 5, 2024" "x2"]]

def C1qpre : List Row := [plainRow "B1" "Feb 10, 2024" "y1", plainRow "B2" "Feb 3, 2024" "y2"]

def C1rstop : Row := plainRow "B3" "Jan 15, 2024" "y3"

def C1qpost : List Row := [plainRow "B4" "Jan 2, 2024" "y4"]

def C1R : List (List Row) := [[]]

/-- Witness for C1 at a concrete three-page crawl with cutoff 2024-02-01:
page 2 stops at its third article; the result holds all of page 1 and the
first two rows of page 2, and page 3 is never visited. -/
theorem C1_stop_at_first_out_of_window_witness :
    (parse_page_num "1 of 3" = some ((C1P.length + 1 + C1R.length : Nat) : Int)
      ∧ C1R ≠ []
      ∧ (∀ p ∈ C1P, p ≠ [] ∧ ∀ r ∈ p, cleanRow r = true ∧
          dateBreaks (r.dateText.getD "") 3 ⟨2024, 4, 15, 500⟩ = false)
      ∧ (∀ r ∈ C1qpre, cleanRow r = true ∧
          dateBreaks (r.dateText.getD "") 3 ⟨2024, 4, 15, 500⟩ = false)
      ∧ dateBreaks (C1rstop.dateText.getD "") 3 ⟨2024, 4, 15, 500⟩ = true)
    ∧ extract_news_data (C1P ++ (C1qpre ++ C1rstop :: C1qpost) :: C1R) (some "1 of 3")
        "a" 3 (fun _ => ⟨2024, 4, 15, 500⟩)
      = ⟨.ok ((C1P.flatten ++ C1qpre).map (rowEntry "a")),
         ((C1P.flatten ++ C1qpre).map rowWritten).flatten,
         List.range 2⟩ :=
  ⟨⟨by decide, by decide, by decide, by decide, by decide⟩,
   C1_stop_at_first_out_of_window C1P C1R C1qpre C1qpost C1rstop "a" "1 of 3" 3
     ⟨2024, 4, 15, 500⟩ (by decide) (by decide) (by decide) (by decide) (by decide)
     (by decide) (by decide) (by decide)⟩

/-- C2 (code evaluation at the failing input): the article date string
Apr 1, 2024 parses to exactly the first day of the cutoff month, yet
should_process_article returns Break (OUT_OF_WINDOW) when the crawl runs at
noon with months = 1, because replace(day=1) keeps the wall-clock
time-of-day of datetime.now() in the cutoff, so the midnight-parsed article
compares strictly below it. The claim (and spec sections 3 and 8) says such
an article is IN_WINDOW. -/
theorem C2_first_day_of_cutoff_month_breaks :
    parse_article_date "Apr 1, 2024" = some ⟨2024, 4, 1⟩
    ∧ cutoff_date ⟨2024, 4, 15, 43200⟩ 1 = ⟨2024, 4, 1, 43200⟩
    ∧ should_process_article "Apr 1, 2024" 1 ⟨2024, 4, 15, 43200⟩ = "Break"
    ∧ should_process_article "Apr 1, 2024" 1 ⟨2024, 4, 15, 0⟩ = "Continue" := by
  refine ⟨by decide, by decide, by decide, by decide⟩

/-- Clock for the C3 counterexample: the first date check happens on
March 31, every later one on April 1 (the run crosses a month boundary). -/
def C3clock : Nat → PyDateTime := fun k => if k = 0 then ⟨2024, 3, 31, 0⟩ else ⟨2024, 4, 1, 0⟩

def C3pages : List (List Row) :=
  [[plainRow "A" "Mar 5, 2024" "x", plainRow "B" "Mar 5, 2024" "y"],
   [plainRow "C" "Mar 20, 2024" "z"], []]

/-- C3 counterexample: two articles with the same date string, checked in the
same run, are classified differently because should_process_article calls
datetime.now() afresh at every check; consequently the whole crawl result
differs from the result obtained with the cutoff fixed at the crawl start
instant, refuting the claim that the cutoff is computed once per crawl. -/
theorem C3_cutoff_drift_counterexample :
    should_process_article "Mar 5, 2024" 1 (C3clock 0) = "Continue"
    ∧ should_process_article "Mar 5, 2024" 1 (C3clock 1) = "Break"
    ∧ extract_news_data C3pages (some "1 of 3") "a" 1 C3clock
        ≠ extract_news_data C3pages (some "1 of 3") "a" 1 (fun _ => C3clock 0) := by
  refine ⟨by decide, by decide, by decide⟩

/-- C3 amended: the cutoff is recomputed at every date check from the
instant of that check (the now fed to should_process_article), not once per
crawl: the check says Break exactly when the date parses strictly below the
cutoff derived from that instant. -/
theorem C3_cutoff_recomputed_each_check (d : String) (months : Int) (now : PyDateTime) :
    should_process_article d months now = "Break"
      ↔ ∃ pd, parse_article_date d = some pd ∧ dtLt (pdDT pd) (cutoff_date now months) = true := by
  rw [spa_eq_break_iff]
  unfold dateBreaks
  cases h : parse_article_date d with
  | none => simp
  | some pd => simp [h]

/-- C4 (code evaluation at the failing input): when the page-count header is
unreadable (element read raised) or unparsable (int() raised), the except
clause of extract_news_data only logs, page_num is never assigned, and the
loop line raises NameError: the call ends in an exception instead of
returning the empty list the claim promises. -/
theorem C4_page_count_failure_raises :
    extract_news_data [[plainRow "T" "Apr 2, 2024" "d"]] none "Nasdaq" 3
        (fun _ => ⟨2024, 4, 15, 0⟩) = ⟨.exn, [], []⟩
    ∧ parse_page_num "1 of ten" = none
    ∧ extract_news_data [[plainRow "T" "Apr 2, 2024" "d"]] (some "1 of ten") "Nasdaq" 3
        (fun _ => ⟨2024, 4, 15, 0⟩) = ⟨.exn, [], []⟩ := by
  refine ⟨by decide, by decide, by decide⟩

/-- A clean prefix followed by a row whose description read raises: the rows
of the prefix are recorded, the failing row produces no record, the rows
after it are not reached, and the exception escapes extract_page_data. -/
theorem epd_fail_list (phrase : String) (months : Int) (t : PyDateTime) :
    ∀ (pre : List Row) (rbad : Row) (post : List Row) (data : List NewsEntry)
      (written : List String) (tick : Nat),
    (∀ r ∈ pre, cleanRow r = true ∧ dateBreaks (r.dateText.getD "") months t = false) →
    rbad.waitEnabled = true → rbad.title.isSome = true → rbad.dateText.isSome = true →
    dateBreaks (rbad.dateText.getD "") months t = false → rbad.description = none →
    extract_page_data (pre ++ rbad :: post) phrase data months (fun _ => t) tick written
      = ⟨data ++ pre.map (rowEntry phrase), written ++ (pre.map rowWritten).flatten,
         .exn, tick + pre.length + 1⟩ := by
  intro pre
  induction pre with
  | nil =>
    intro rbad post data written tick _ hw ht hd hb hdesc
    obtain ⟨dd, hdd⟩ := Option.isSome_iff_exists.mp hd
    obtain ⟨tt, htt⟩ := Option.isSome_iff_exists.mp ht
    have hnb : should_process_article (rbad.dateText.getD "") months t ≠ "Break" := by
      intro he
      rw [spa_eq_break_iff] at he
      rw [he] at hb
      exact Bool.true_eq_false.mp hb
    rw [hdd] at hnb
    simp only [Option.getD_some] at hnb
    cases rbad with
    | mk we t? d? ds? src dl =>
      simp only at hw htt hdd hdesc
      subst hw htt hdd hdesc
      simp [extract_page_data, if_neg hnb]
  | cons r rest ih =>
    intro rbad post data written tick h hw ht hd hb hdesc
    obtain ⟨hc, hbf⟩ := h r (by simp)
    have hnb : should_process_article (r.dateText.getD "") months t ≠ "Break" := by
      intro he
      rw [spa_eq_break_iff] at he
      rw [he] at hbf
      exact Bool.true_eq_false.mp hbf
    rw [List.cons_append,
      epd_cons_clean r (rest ++ rbad :: post) phrase data months (fun _ => t) tick written hc hnb]
    rw [ih rbad post _ _ _ (fun x hx => h x (by simp [hx])) hw ht hd hb hdesc]
    simp [List.append_assoc]
    omega

/-- When extract_page_data escapes with an exception, the
run_keyword_and_return_status wrapper in extract_news_data swallows it and
the loop navigates to the next page with the entries accumulated so far. -/
theorem loop_page_exn_continues (phrase : String) (months : Int) (clock : Nat → PyDateTime)
    (a : Row) (as : List Row) (q : List Row) (qs : List (List Row)) (iters cur : Nat)
    (data d2 : List NewsEntry) (written w2 : List String) (vis : List Nat) (tick t2 : Nat)
    (hepd : extract_page_data (a :: as) phrase data months clock tick written
      = ⟨d2, w2, .exn, t2⟩) :
    crawl_loop phrase months clock (iters + 1) ((a :: as) :: q :: qs) cur data written vis tick
      = crawl_loop phrase months clock iters (q :: qs) (cur + 1) d2 w2 (vis ++ [cur]) t2 := by
  simp only [crawl_loop]
  rw [hepd]
  dsimp only
  rw [if_neg (by simp)]

/-- C5 (counterexample): a row whose image attribute resolves to a URL but
whose download fails; the record is produced with the derived local path,
not the sentinel No image, and no file is written, so the record references
a file that was not written. -/
theorem C5_download_failure_keeps_path_counterexample :
    (⟨true, some "T5", some "Apr 2, 2024", some "D5",
        some (some "https://img.example/x%2Fphoto, 2x"), false⟩ : Row).download_ok = false
    ∧ extract_page_data
        [⟨true, some "T5", some "Apr 2, 2024", some "D5",
          some (some "https://img.example/x%2Fphoto, 2x"), false⟩]
        "a" [] 3 (fun _ => ⟨2024, 4, 15, 0⟩) 0 []
      = ⟨[⟨"T5", "Apr 2, 2024", "D5", "./output/2Fphoto.jpg", 0, false⟩], [], .ok none, 1⟩
    ∧ ("./output/2Fphoto.jpg" : String) ≠ "No image" := by
  refine ⟨by decide, by decide, by decide⟩

/-- C5 amended: image acquisition never aborts article extraction and the
record is always produced; the sentinel No image is recorded exactly when
the source-element lookup raises, while a failure of the download itself is
swallowed inside download_image, so the record keeps the derived local path
under ./output/ and nothing is written for that row. -/
theorem C5_image_failure_handling (r : Row) (rest : List Row) (phrase : String)
    (months : Int) (clock : Nat → PyDateTime) (tick : Nat) (data : List NewsEntry)
    (written : List String)
    (hc : cleanRow r = true)
    (hnb : should_process_article (r.dateText.getD "") months (clock tick) ≠ "Break") :
    extract_page_data (r :: rest) phrase data months clock tick written
      = extract_page_data rest phrase (data ++ [rowEntry phrase r]) months clock (tick + 1)
          (written ++ rowWritten r)
    ∧ (r.srcset = none → (rowEntry phrase r).image_filename = "No image")
    ∧ (∀ a, r.srcset = some a → r.download_ok = false →
        (rowEntry phrase r).image_filename = "./output/" ++ img_name_of (strAttr a)
          ∧ rowWritten r = []) := by
  refine ⟨epd_cons_clean r rest phrase data months clock tick written hc hnb, ?_, ?_⟩
  · intro hsrc
    simp [rowEntry, rowImage, hsrc]
  · intro a hsrc hdl
    constructor
    · simp [rowEntry, rowImage, hsrc]
    · simp [rowWritten, hsrc, hdl]

/-- Witness for the amended C5 at a concrete row with a present srcset whose
download fails: the step produces the record and writes nothing. -/
theorem C5_image_failure_handling_witness :
    cleanRow ⟨true, some "T5w", some "Apr 3, 2024", some "D5w",
        some (some "https://img.example/u%9Zpic, 2x"), false⟩ = true
    ∧ extract_page_data
        [(⟨true, some "T5w", some "Apr 3, 2024", some "D5w",
           some (some "https://img.example/u%9Zpic, 2x"), false⟩ : Row)]
        "b" [] 3 (fun _ => ⟨2024, 4, 15, 9⟩) 0 []
      = extract_page_data [] "b"
          ([] ++ [rowEntry "b" ⟨true, some "T5w", some "Apr 3, 2024", some "D5w",
            some (some "https://img.example/u%9Zpic, 2x"), false⟩]) 3
          (fun _ => ⟨2024, 4, 15, 9⟩) (0 + 1)
          ([] ++ rowWritten ⟨true, some "T5w", some "Apr 3, 2024", some "D5w",
            some (some "https://img.example/u%9Zpic, 2x"), false⟩)
    ∧ (rowEntry "b" ⟨true, some "T5w", some "Apr 3, 2024", some "D5w",
         some (some "https://img.example/u%9Zpic, 2x"), false⟩).image_filename
        = "./output/" ++ img_name_of (strAttr (some "https://img.example/u%9Zpic, 2x"))
    ∧ rowWritten ⟨true, some "T5w", some "Apr 3, 2024", some "D5w",
        some (some "https://img.example/u%9Zpic, 2x"), false⟩ = [] :=
  ⟨by decide,
   (C5_image_failure_handling _ [] "b" 3 (fun _ => ⟨2024, 4, 15, 9⟩) 0 [] []
     (by decide) (by decide)).1,
   ((C5_image_failure_handling _ [] "b" 3 (fun _ => ⟨2024, 4, 15, 9⟩) 0 [] []
     (by decide) (by decide)).2.2 _ rfl rfl).1,
   ((C5_image_failure_handling _ [] "b" 3 (fun _ => ⟨2024, 4, 15, 9⟩) 0 [] []
     (by decide) (by decide)).2.2 _ rfl rfl).2⟩

def C6badRow : Row := ⟨true, some "R1", some "Apr 2, 2024", none, none, false⟩

def C6goodRow : Row := plainRow "R2" "Apr 3, 2024" "ok2"

def C6pages : List (List Row) := [[C6badRow, C6goodRow], [plainRow "R3" "Apr 4, 2024" "ok3"], []]

/-- C6 counterexample: on a page whose first row fails reading its
description, the following clean in-window row R2 is never processed (its
record is absent from the result), refuting row-level isolation; the crawl
still continues with the next page, whose row R3 is the only record. -/
theorem C6_row_failure_skips_rest_of_page_counterexample :
    cleanRow C6goodRow = true
    ∧ dateBreaks (C6goodRow.dateText.getD "") 3 ⟨2024, 4, 15, 0⟩ = false
    ∧ extract_news_data C6pages (some "1 of 3") "a" 3 (fun _ => ⟨2024, 4, 15, 0⟩)
      = ⟨.ok [rowEntry "a" (plainRow "R3" "Apr 4, 2024" "ok3")], [], [0, 1]⟩
    ∧ rowEntry "a" C6goodRow ∉ [rowEntry "a" (plainRow "R3" "Apr 4, 2024" "ok3")] := by
  refine ⟨by decide, by decide, by decide, by decide⟩

/-- C6 amended: a non-image non-date row failure (here: the description read
raises) is isolated at the page level, not the row level: the failing row
produces no record, the remaining rows of that page are not processed, the
entries of the preceding rows survive, and the wrapper in extract_news_data
catches the exception so the crawl continues with the next page. -/
theorem C6_nonimage_row_failure_page_scoped :
    (∀ (pre : List Row) (rbad : Row) (post : List Row) (phrase : String) (months : Int)
       (t : PyDateTime) (data : List NewsEntry) (written : List String) (tick : Nat),
      (∀ r ∈ pre, cleanRow r = true ∧ dateBreaks (r.dateText.getD "") months t = false) →
      rbad.waitEnabled = true → rbad.title.isSome = true → rbad.dateText.isSome = true →
      dateBreaks (rbad.dateText.getD "") months t = false → rbad.description = none →
      extract_page_data (pre ++ rbad :: post) phrase data months (fun _ => t) tick written
        = ⟨data ++ pre.map (rowEntry phrase), written ++ (pre.map rowWritten).flatten, .exn,
           tick + pre.length + 1⟩)
    ∧ (∀ (phrase : String) (months : Int) (clock : Nat → PyDateTime) (a : Row)
         (as q : List Row) (qs : List (List Row)) (iters cur : Nat)
         (data d2 : List NewsEntry) (written w2 : List String) (vis : List Nat) (tick t2 : Nat),
        extract_page_data (a :: as) phrase data months clock tick written
          = ⟨d2, w2, .exn, t2⟩ →
        crawl_loop phrase months clock (iters + 1) ((a :: as) :: q :: qs) cur data written vis tick
          = crawl_loop phrase months clock iters (q :: qs) (cur + 1) d2 w2 (vis ++ [cur]) t2) := by
  constructor
  · intro pre rbad post phrase months t data written tick hpre hw ht hd hb hdesc
    exact epd_fail_list phrase months t pre rbad post data written tick hpre hw ht hd hb hdesc
  · intro phrase months clock a as q qs iters cur data d2 written w2 vis tick t2 hepd
    exact loop_page_exn_continues phrase months clock a as q qs iters cur data d2
      written w2 vis tick t2 hepd

/-- Witness for the amended C6 at the concrete failing page of C6pages. -/
theorem C6_nonimage_row_failure_page_scoped_witness :
    extract_page_data ([] ++ C6badRow :: [C6goodRow]) "a" [] 3 (fun _ => ⟨2024, 4, 15, 0⟩) 0 []
      = ⟨[] ++ ([] : List Row).map (rowEntry "a"),
         [] ++ (([] : List Row).map rowWritten).flatten, .exn, 0 + ([] : List Row).length + 1⟩
    ∧ crawl_loop "a" 3 (fun _ => ⟨2024, 4, 15, 0⟩) (1 + 1)
        ((C6badRow :: [C6goodRow]) :: [plainRow "R3" "Apr 4, 2024" "ok3"] :: [[]]) 0 [] [] [] 0
      = crawl_loop "a" 3 (fun _ => ⟨2024, 4, 15, 0⟩) 1
          ([plainRow "R3" "Apr 4, 2024" "ok3"] :: [[]]) (0 + 1) [] [] ([] ++ [0]) 1 :=
  ⟨C6_nonimage_row_failure_page_scoped.1 [] C6badRow [C6goodRow] "a" 3 ⟨2024, 4, 15, 0⟩
     [] [] 0 (by decide) (by decide) (by decide) (by decide) (by decide) (by decide),
   C6_nonimage_row_failure_page_scoped.2 "a" 3 (fun _ => ⟨2024, 4, 15, 0⟩) C6badRow
     [C6goodRow] [plainRow "R3" "Apr 4, 2024" "ok3"] [[]] 1 0 [] [] [] [] [] 0 1 (by decide)⟩

/-- C7: a date string matching none of the accepted formats is non-fatal and
in-window-equivalent: should_process_article returns Continue (the None
comparison raises and the outer except falls through), and a clean row with
such a date is processed into its record with the page continuing at the
next row. -/
theorem C7_unparseable_date_nonfatal :
    (∀ (d : String) (months : Int) (now : PyDateTime),
      parse_article_date d = none → should_process_article d months now = "Continue")
    ∧ (∀ (r : Row) (rest : List Row) (phrase : String) (months : Int)
         (clock : Nat → PyDateTime) (tick : Nat) (data : List NewsEntry)
         (written : List String),
        cleanRow r = true → parse_article_date (r.dateText.getD "") = none →
        extract_page_data (r :: rest) phrase data months clock tick written
          = extract_page_data rest phrase (data ++ [rowEntry phrase r]) months clock (tick + 1)
              (written ++ rowWritten r)) := by
  have hcont : ∀ (d : String) (months : Int) (now : PyDateTime),
      parse_article_date d = none → should_process_article d months now = "Continue" := by
    intro d months now hp
    unfold should_process_article
    rw [hp]
  refine ⟨hcont, ?_⟩
  intro r rest phrase months clock tick data written hc hp
  refine epd_cons_clean r rest phrase data months clock tick written hc ?_
  rw [hcont _ months (clock tick) hp]
  decide

/-- Witness for C7 at the unparseable date string tomorrow. -/
theorem C7_unparseable_date_nonfatal_witness :
    parse_article_date "tomorrow" = none
    ∧ should_process_article "tomorrow" 3 ⟨2024, 4, 15, 0⟩ = "Continue"
    ∧ extract_page_data [plainRow "T7" "tomorrow" "D7"] "a" [] 3 (fun _ => ⟨2024, 4, 15, 0⟩) 0 []
      = extract_page_data [] "a" ([] ++ [rowEntry "a" (plainRow "T7" "tomorrow" "D7")]) 3
          (fun _ => ⟨2024, 4, 15, 0⟩) (0 + 1) ([] ++ rowWritten (plainRow "T7" "tomorrow" "D7")) :=
  ⟨by decide,
   C7_unparseable_date_nonfatal.1 "tomorrow" 3 ⟨2024, 4, 15, 0⟩ (by decide),
   C7_unparseable_date_nonfatal.2 (plainRow "T7" "tomorrow" "D7") [] "a" 3
     (fun _ => ⟨2024, 4, 15, 0⟩) 0 [] [] (by decide) (by decide)⟩

/-- Scanning the empty string for a nonempty needle yields zero. -/
theorem pyCountStr_nil_left (sub : String) (h : sub.data ≠ []) : pyCountStr "" sub = 0 := by
  unfold pyCountStr
  cases hs : sub.data with
  | nil => exact absurd hs h
  | cons c cs =>
    rfl

/-- C8: for a non-empty phrase the phrase-occurrence count is the sum of the
case-insensitive non-overlapping counts taken independently over the title
and over the description (so a boundary-spanning occurrence is never
counted), and the spec example over Nasdaq yields 2. -/
theorem C8_count_per_field_sum (t d p : String) (hp : p ≠ "") :
    search_phrase_count t d p = search_phrase_count t "" p + search_phrase_count "" d p
    ∧ search_phrase_count "Nasdaq rises" "Stocks on Nasdaq gain" "nasdaq" = 2 := by
  constructor
  · have hne : (pyLower p).data ≠ [] := by
      cases p with
      | mk l =>
        cases l with
        | nil => exact absurd (by decide) hp
        | cons c cs => simp [pyLower]
    have h0 : pyCountStr "" (pyLower p) = 0 := pyCountStr_nil_left _ hne
    unfold search_phrase_count
    have hll : pyLower "" = "" := by decide
    rw [hll, h0]
    omega
  · decide

/-- Witness for C8 at the spec example. -/
theorem C8_count_per_field_sum_witness :
    ("nasdaq" : String) ≠ ""
    ∧ (search_phrase_count "Nasdaq rises" "Stocks on Nasdaq gain" "nasdaq"
        = search_phrase_count "Nasdaq rises" "" "nasdaq"
          + search_phrase_count "" "Stocks on Nasdaq gain" "nasdaq"
      ∧ search_phrase_count "Nasdaq rises" "Stocks on Nasdaq gain" "nasdaq" = 2) :=
  ⟨by decide, C8_count_per_field_sum "Nasdaq rises" "Stocks on Nasdaq gain" "nasdaq" (by decide)⟩

/-- Modelled from the spec words of C9: whether a character list ends with
the given one (used only to state what the claim asserts; the source tests
containment instead). -/
def isSuffixCh (sfx s : List Char) : Bool := isPrefixCh sfx.reverse s.reverse

theorem isPrefixCh_refl : ∀ l : List Char, isPrefixCh l l = true
  | [] => rfl
  | a :: as => by simp [isPrefixCh, isPrefixCh_refl as]

theorem containsCh_append_self : ∀ (xs sub : List Char), containsCh sub (xs ++ sub) = true := by
  intro xs
  induction xs with
  | nil =>
    intro sub
    cases sub with
    | nil => rfl
    | cons b bs => simp [containsCh, isPrefixCh_refl]
  | cons x xs ih =>
    intro sub
    rw [List.cons_append]
    simp only [containsCh]
    rw [ih sub]
    simp

/-- C9 counterexample: the derived name b.jpg.png contains .jpg, so no
suffix is appended and the recorded filename does not end with .jpg,
refuting the ends-with reading of the claim and its consequence that every
recorded filename ends in .jpg. -/
theorem C9_name_not_suffix_counterexample :
    img_name_of "https://img.example/a%b.jpg.png 2x" = "b.jpg.png"
    ∧ isSuffixCh (".jpg".data) (("b.jpg.png" : String).data) = false := by
  refine ⟨by decide, by decide⟩

/-- C9 amended: the name derived from the first comma candidate's first
space token after the last percent sign gets .jpg appended if and only if it
does not already contain the substring .jpg; the recorded name therefore
always contains .jpg but need not end with it. -/
theorem C9_jpg_appended_iff_not_contained (attr : String) :
    img_name_of attr
      = (if containsCh (".jpg".data) (img_name_raw attr.data)
          then (⟨img_name_raw attr.data⟩ : String)
          else ⟨img_name_raw attr.data ++ (".jpg").data⟩)
    ∧ containsCh (".jpg".data) ((img_name_of attr).data) = true := by
  constructor
  · rfl
  · dsimp only [img_name_of]
    by_cases h : containsCh (".jpg".data) (img_name_raw attr.data) = true
    · rw [if_pos h]
      exact h
    · rw [if_neg h]
      exact containsCh_append_self (img_name_raw attr.data) (".jpg".data)

/-- C10: the contains-money flag of every produced record is computed from
the description alone: contains_money is the disjunction of the three
monetary pattern searches over its single text argument, a processed row
records exactly contains_money of its description, and a monetary value
appearing only in the title leaves the flag false even though the same text
in a description would set it. -/
theorem C10_money_flag_from_description_only :
    (∀ s : String, contains_money s
        = (searchDollarAmount s.data || searchNumWord ("dollars".data) s.data
            || searchNumWord ("USD".data) s.data))
    ∧ (∀ (r : Row) (rest : List Row) (phrase : String) (months : Int)
         (clock : Nat → PyDateTime) (tick : Nat) (data : List NewsEntry)
         (written : List String),
        cleanRow r = true →
        should_process_article (r.dateText.getD "") months (clock tick) ≠ "Break" →
        extract_page_data (r :: rest) phrase data months clock tick written
          = extract_page_data rest phrase (data ++ [rowEntry phrase r]) months clock (tick + 1)
              (written ++ rowWritten r)
        ∧ (rowEntry phrase r).money = contains_money (r.description.getD ""))
    ∧ (rowEntry "a" (plainRow "It cost $5" "Apr 2, 2024" "calm day")).money = false
    ∧ contains_money "It cost $5" = true := by
  refine ⟨fun s => rfl, ?_, by decide, by decide⟩
  intro r rest phrase months clock tick data written hc hnb
  exact ⟨epd_cons_clean r rest phrase data months clock tick written hc hnb, rfl⟩

/-- Witness for C10 at a concrete row whose description mentions USD. -/
theorem C10_money_flag_from_description_only_witness :
    cleanRow (plainRow "W10" "Apr 2, 2024" "price 7 USD") = true
    ∧ (extract_page_data [plainRow "W10" "Apr 2, 2024" "price 7 USD"] "w" [] 3
          (fun _ => ⟨2024, 4, 15, 0⟩) 0 []
        = extract_page_data [] "w"
            ([] ++ [rowEntry "w" (plainRow "W10" "Apr 2, 2024" "price 7 USD")]) 3
            (fun _ => ⟨2024, 4, 15, 0⟩) (0 + 1)
            ([] ++ rowWritten (plainRow "W10" "Apr 2, 2024" "price 7 USD"))
      ∧ (rowEntry "w" (plainRow "W10" "Apr 2, 2024" "price 7 USD")).money
          = contains_money ((plainRow "W10" "Apr 2, 2024" "price 7 USD").description.getD "")) :=
  ⟨by decide,
   C10_money_flag_from_description_only.2.1 (plainRow "W10" "Apr 2, 2024" "price 7 USD") []
     "w" 3 (fun _ => ⟨2024, 4, 15, 0⟩) 0 [] [] (by decide) (by decide)⟩
